import Mathlib

/-!
# Verification of the Judicio backend (`src/server.js`)

The repository holds two variants of the same Express server in one file:
variant A (first copy) and variant B (second copy).  Each variant exposes
five POST endpoints that forward text to a completion service and reshape
the reply with string splitting and a handful of regular expressions.

This development shallowly embeds the string-processing cores and the
handler control flow of both variants.  Strings are `List Char` (the
handlers only ever treat them as character sequences); the outbound
completion call, file extraction and the ML subprocess are oracles passed
in as `Except` values, so a theorem quantifying over the oracle covers
every success/failure path of the handler.

JS semantics modelled here, for the constructs the source uses:
* `String.prototype.split` with a single-character-class regex keeps empty
  pieces and returns `[""]` on the empty string;
* `split` with a literal or a `Label[:\-]` regex scans left to right for
  non-overlapping occurrences;
* `trim` removes leading and trailing whitespace;
* `x || y` returns `y` when `x` is `undefined` or the empty string;
* `/Label[:\-]\s*(.*)/` captures, after the first occurrence of the label
  followed by `:` or `-` and a maximal whitespace run, the characters up
  to the next line terminator (`.` does not cross lines);
* `/Label[:\-]\s*([\s\S]*?)(?:Stop[:\-]|$)/` captures up to the first
  occurrence of the stop label (or everything, if there is none);
* `/Label[:\-]\s*([\s\S]*)/` captures everything after the whitespace run;
* `JSON.stringify` drops object properties whose value is `undefined`.
-/

/-- Characters of a string literal (shorthand used throughout). -/
def s (x : String) : List Char := x.data

/-- The whitespace characters relevant here (ASCII fragment of JS `\s`,
which is also the set `trim` strips for ASCII input). -/
def jsSpace (c : Char) : Bool :=
  c == ' ' || c == '\t' || c == '\n' || c == '\r' || c == '\x0b' || c == '\x0c'

/-- JS line terminators: `.` in a regex without the `s` flag matches any
character except these. -/
def isLineTerm (c : Char) : Bool :=
  c == '\n' || c == '\r' || c == '\u2028' || c == '\u2029'

/-- The separator set of `/[:\-]/`, used right after every label. -/
def isSep (c : Char) : Bool :=
  c == ':' || c == '-'

/-- Case-insensitive character comparison (ASCII, as in a JS `i`-flag
regex over ASCII labels). -/
def lcEq (a b : Char) : Bool := a.toLower == b.toLower

/-- Character comparison, case-insensitive iff `ci`. -/
def chEq (ci : Bool) (a b : Char) : Bool := if ci then lcEq a b else a == b

/-- Does `t` start with `pat` (under `chEq ci`)? -/
def startsWith2 (ci : Bool) : List Char → List Char → Bool
  | [], _ => true
  | _ :: _, [] => false
  | p :: ps, c :: cs => chEq ci p c && startsWith2 ci ps cs

/-- Does `t` start with a match of `Lab[:\-]` (label `lab`, case
handling `ci`)? -/
def startsLabel (lab : List Char) (ci : Bool) (t : List Char) : Bool :=
  startsWith2 ci lab t &&
    (match List.drop lab.length t with
     | c :: _ => isSep c
     | [] => false)

/-- `JSON`-side trim: drop leading whitespace. -/
def dropSpaces (t : List Char) : List Char := t.dropWhile jsSpace

/-- `String.prototype.trim`. -/
def trim (t : List Char) : List Char :=
  ((t.dropWhile jsSpace).reverse.dropWhile jsSpace).reverse

/-- Capture of `(.*)`: everything up to the next line terminator. -/
def takeLine (t : List Char) : List Char := t.takeWhile (fun c => !(isLineTerm c))

/-- The suffix following the first occurrence of `Lab[:\-]` in `t`, if
any.  This is where a JS regex beginning with the literal label first
matches (the rest of the patterns used here always succeed). -/
def findLabel (lab : List Char) (ci : Bool) : List Char → Option (List Char)
  | [] => none
  | c :: cs =>
    if startsLabel lab ci (c :: cs) = true then some (List.drop lab.length cs)
    else findLabel lab ci cs

/-- Capture of `([\s\S]*?)` that is stopped by `Stop[:\-]` (case
insensitive) or end of string: the characters before the first occurrence
of the stop label. -/
def upToLabel (stop : List Char) : List Char → List Char
  | [] => []
  | c :: cs =>
    if startsLabel stop true (c :: cs) = true then []
    else c :: upToLabel stop cs

/-- Capture group of `/Lab[:\-]\s*(.*)/` (with `i` iff `ci`). -/
def matchLine (lab : List Char) (ci : Bool) (t : List Char) : Option (List Char) :=
  match findLabel lab ci t with
  | none => none
  | some suf => some (takeLine (dropSpaces suf))

/-- Capture group of `/Lab[:\-]\s*([\s\S]*?)(?:Stop[:\-]|$)/i`. -/
def matchMulti (lab stop : List Char) (t : List Char) : Option (List Char) :=
  match findLabel lab true t with
  | none => none
  | some suf => some (upToLabel stop (dropSpaces suf))

/-- Capture group of `/Lab[:\-]\s*([\s\S]*)/i`. -/
def matchRest (lab : List Char) (t : List Char) : Option (List Char) :=
  match findLabel lab true t with
  | none => none
  | some suf => some (dropSpaces suf)

/-- `t.split(re)` for a single-character-class regex `re` described by
the predicate `p`.  Keeps empty pieces; `"".split(re)` is `[""]`. -/
def splitChars (p : Char → Bool) : List Char → List (List Char)
  | [] => [[]]
  | c :: cs =>
    if p c then [] :: splitChars p cs
    else
      match splitChars p cs with
      | [] => [[c]]
      | h :: r => (c :: h) :: r

/-- Worker for the literal split: while `skip` is positive the scanner is
inside an already-matched separator and just consumes characters; at
`skip = 0` it either matches the separator (emitting a segment break and
arming a skip over the separator's remaining characters) or moves the
character into the current segment.  Structural recursion on the text so
every application reduces definitionally. -/
def splitSkip (sep : List Char) : List Char → Nat → List (List Char)
  | [], _ => [[]]
  | _ :: cs, Nat.succ k => splitSkip sep cs k
  | c :: cs, 0 =>
    if startsWith2 false sep (c :: cs) = true then
      ([] : List Char) :: splitSkip sep cs (sep.length - 1)
    else
      match splitSkip sep cs 0 with
      | [] => [[c]]
      | h :: r => (c :: h) :: r

/-- `t.split(lit)` for a non-empty literal separator: non-overlapping
occurrences, scanned left to right. -/
def splitLit (sep : List Char) (t : List Char) : List (List Char) :=
  splitSkip sep t 0

/-- Worker for the label-regex split, in the style of `splitSkip`: a
match of `Lab[:\-]` spans `lab.length + 1` characters, so after emitting
the break at the match's first character the next `lab.length` characters
are consumed. -/
def splitLabelSkip (lab : List Char) : List Char → Nat → List (List Char)
  | [], _ => [[]]
  | _ :: cs, Nat.succ k => splitLabelSkip lab cs k
  | c :: cs, 0 =>
    if startsLabel lab true (c :: cs) = true then
      ([] : List Char) :: splitLabelSkip lab cs lab.length
    else
      match splitLabelSkip lab cs 0 with
      | [] => [[c]]
      | h :: r => (c :: h) :: r

/-- `t.split(/Lab[:\-]/i)`: split at every occurrence of the label
followed by a separator. -/
def splitLabel (lab : List Char) (t : List Char) : List (List Char) :=
  splitLabelSkip lab t 0

/-- JS `x || d` where `x : string | undefined`: `d` when `x` is absent or
empty (the empty string is falsy). -/
def jsOr (x : Option (List Char)) (d : List Char) : List Char :=
  match x with
  | none => d
  | some v => if v.isEmpty then d else v

/-- JS `m?.[1]?.trim() || d`: trim the capture, with `d` when the match
failed or the trimmed capture is empty. -/
def jsOrElse (x : Option (List Char)) (d : List Char) : List Char :=
  match x with
  | none => d
  | some v => if (trim v).isEmpty then d else trim v

/-- Truthiness test of an optional request field. -/
def jsFalsy (x : Option (List Char)) : Bool :=
  match x with
  | none => true
  | some v => v.isEmpty

/-! ## Parser cores

One definition per regex-processing block of the source, for each
variant. -/

/-- `{outcome, reasoning, confidence}` record of `/predict-outcome`. -/
structure Prediction where
  outcome : List Char
  reasoning : List Char
  confidence : List Char
deriving DecidableEq, Repr

/-- Variant A, `/predict-outcome` (server.js lines 148–150):
`text.match(/Outcome[:\-]\s*(.*)/i)?.[1]?.trim() || "No clear outcome."`
and the analogous reasoning/confidence extractions. -/
def predictCoreA (text : List Char) : Prediction :=
  { outcome := jsOrElse (matchLine (s "Outcome") true text) (s "No clear outcome.")
  , reasoning := jsOrElse (matchMulti (s "Reasoning") (s "Confidence") text) (s "No reasoning found.")
  , confidence := jsOrElse (matchLine (s "Confidence") true text) (s "Unknown") }

/-- Variant B, `/predict-outcome` (lines 405–407): case-sensitive,
single-line matches without trim, empty-string fallbacks:
`text.match(/Outcome[:\-]\s*(.*)/)?.[1] || ""` etc. -/
def predictCoreB (text : List Char) : Prediction :=
  { outcome := (matchLine (s "Outcome") false text).getD []
  , reasoning := (matchLine (s "Reasoning") false text).getD []
  , confidence := (matchLine (s "Confidence") false text).getD [] }

/-- Timeline entry of variant A (both fields always strings). -/
structure TimelineEntryA where
  date : List Char
  event : List Char
deriving DecidableEq, Repr

/-- Timeline entry of variant B (`event` may be `undefined`). -/
structure TimelineEntryB where
  date : List Char
  event : Option (List Char)
deriving DecidableEq, Repr

/-- The `/[-–:]/` class of variant A's timeline split. -/
def sepA (c : Char) : Bool := c == '-' || c == '–' || c == ':'

/-- The `/[-–—:]/` class of variant B's timeline split. -/
def sepB (c : Char) : Bool := c == '-' || c == '–' || c == '—' || c == ':'

/-- Variant A, `/generate-timeline` (lines 175–178):
`text.split("\n").filter(l => l.trim()).map(line => { const [date, ...rest]
= line.split(/[-–:]/); return { date: date.trim(), event:
rest.join(" ").trim() }; })`. -/
def timelineCoreA (text : List Char) : List TimelineEntryA :=
  ((splitChars (fun c => c == '\n') text).filter (fun l => !(trim l).isEmpty)).map
    (fun line =>
      match splitChars sepA line with
      | [] => { date := [], event := [] }
      | d :: rest => { date := trim d, event := trim (List.intercalate [' '] rest) })

/-- Variant B, `/generate-timeline` (lines 439–445):
`content.trim().split("\n").map(l => { const [date, event] =
l.split(/[-–—:]/); return { date: date?.trim(), event: event?.trim() }; })`. -/
def timelineCoreB (text : List Char) : List TimelineEntryB :=
  (splitChars (fun c => c == '\n') (trim text)).map
    (fun l =>
      match splitChars sepB l with
      | [] => { date := [], event := none }
      | [d] => { date := trim d, event := none }
      | d :: e :: _ => { date := trim d, event := some (trim e) })

/-- Argument block of variant A (third field is named `response` in the
source's JSON). -/
structure ArgumentBlockA where
  argument : List Char
  analysis : List Char
  response : List Char
deriving DecidableEq, Repr

/-- Argument block of variant B (`analysis`/`strategy` may be
`undefined`). -/
structure ArgumentBlockB where
  argument : List Char
  analysis : Option (List Char)
  strategy : Option (List Char)
deriving DecidableEq, Repr

/-- One block of variant A, `/generate-arguments` (lines 209–216): the
first line is the title (`|| "Untitled Argument"`), analysis comes from
`/Analysis[:\-]\s*([\s\S]*?)(Strategy[:\-]|$)/i` and strategy from
`/Strategy[:\-]\s*([\s\S]*)/i`, each with a ternary fallback. -/
def blockA (b : List Char) : ArgumentBlockA :=
  let title := trim (b.takeWhile (fun c => c != '\n'))
  { argument := if title.isEmpty then s "Untitled Argument" else title
  , analysis :=
      match matchMulti (s "Analysis") (s "Strategy") b with
      | some c => trim c
      | none => s "No analysis provided."
  , response :=
      match matchRest (s "Strategy") b with
      | some c => trim c
      | none => s "No strategy provided." }

/-- Variant A, `/generate-arguments` (lines 208–217):
`response.split(/Argument[:\-]/i).filter(b => b.trim()).map(...)`. -/
def argsCoreA (text : List Char) : List ArgumentBlockA :=
  ((splitLabel (s "Argument") text).filter (fun b => !(trim b).isEmpty)).map blockA

/-- One block of variant B, `/generate-arguments` (lines 482–486):
`argument: b.split("Analysis:")[0].trim()`,
`analysis: b.split("Analysis:")[1]?.split("Strategy:")[0]?.trim()`,
`strategy: b.split("Strategy:")[1]?.trim()`. -/
def blockB (b : List Char) : ArgumentBlockB :=
  let aParts := splitLit (s "Analysis:") b
  let sParts := splitLit (s "Strategy:") b
  { argument := trim (aParts.headD [])
  , analysis :=
      match aParts.drop 1 with
      | [] => none
      | x :: _ => some (trim ((splitLit (s "Strategy:") x).headD []))
  , strategy :=
      match sParts.drop 1 with
      | [] => none
      | x :: _ => some (trim x) }

/-- Variant B, `/generate-arguments` (lines 479–486):
`content.split("Argument:").slice(1).map(...)` — a case-sensitive literal
split whose first piece is always discarded. -/
def argsCoreB (text : List Char) : List ArgumentBlockB :=
  ((splitLit (s "Argument:") text).drop 1).map blockB

/-- The extension token: `originalname.split(".").pop().toLowerCase()`. -/
def extOf (name : List Char) : List Char :=
  ((splitChars (fun c => c == '.') name).getLastD []).map Char.toLower

/-- The extension test of both `/api/analyze-document` handlers. -/
def supportedExt (e : List Char) : Bool :=
  e = s "pdf" || e = s "docx" || e = s "txt"

/-! ## Handlers

Each route handler is a total function from the request fields and the
I/O oracles (extraction result, ML subprocess output, completion-service
result) to the emitted HTTP response.  An `Except.error` oracle value
models the corresponding call throwing (for the completion oracle of
variant B it also covers `choices[0]` being absent, which throws a
`TypeError` into the same `catch`). -/

/-- The JSON values the handlers emit. -/
inductive Json where
  | str : List Char → Json
  | arr : List Json → Json
  | obj : List (List Char × Json) → Json

/-- An emitted HTTP response: status code plus JSON body. -/
structure Response where
  status : Nat
  body : Json

/-- Outcome of a document-analysis request: the response, whether the
stored upload was deleted from disk, and whether text extraction was
attempted. -/
structure DocOut where
  resp : Response
  deleted : Bool
  attempted : Bool

/-- `JSON.stringify` object construction: fields whose value is
`undefined` are dropped. -/
def objFields (fs : List (List Char × Option Json)) : List (List Char × Json) :=
  fs.filterMap (fun kv => match kv.2 with
    | none => none
    | some v => some (kv.1, v))

/-- Did the `Except`-modelled call succeed? -/
def exOk : Except ε α → Bool
  | .ok _ => true
  | .error _ => false

/-- Variant A, `POST /chat` (lines 29–52).  `p`/`m` are the optional
`prompt`/`message` body fields; `co` is the completion call, whose `ok`
payload is the optional first-choice content. -/
def chatA (p m : Option (List Char)) (co : Except (List Char) (Option (List Char))) :
    Response :=
  if (jsOr p (jsOr m (s "Explain this legal concept simply."))).isEmpty then
    ⟨400, .obj [(s "text", .str (s "⚠️ Missing prompt input."))]⟩
  else
    match co with
    | .error e =>
      ⟨500, .obj [(s "text", .str (s "⚠️ Could not connect to Judicio server.")),
                  (s "error", .str e)]⟩
    | .ok c =>
      ⟨200, .obj [(s "text", .str (jsOr (c.map trim) (s "⚠️ No response from Judicio server.")))]⟩

/-- Variant B, `POST /chat` (lines 290–309): the `catch` answers with
status 200 and a fixed text. -/
def chatB (co : Except Unit (List Char)) : Response :=
  match co with
  | .error _ => ⟨200, .obj [(s "text", .str (s "⚠️ Could not connect to server."))]⟩
  | .ok c => ⟨200, .obj [(s "text", .str (trim c))]⟩

/-- Variant A, `POST /api/analyze-document` (lines 57–110).  For a
supported extension the extraction oracle `ex` runs first; only after it
returns is `fs.unlinkSync` reached, so a thrown extraction lands in the
`catch` with the upload still on disk.  The unsupported branch unlinks and
answers immediately. -/
def analyzeA (name : List Char) (ex : Except (List Char) (List Char))
    (co : Except (List Char) (Option (List Char))) : DocOut :=
  if supportedExt (extOf name) = true then
    match ex with
    | .error e =>
      ⟨⟨500, .obj [(s "summary", .str (s "⚠️ Could not connect to Judicio server.")),
                   (s "error", .str e)]⟩, false, true⟩
    | .ok _ =>
      match co with
      | .error e =>
        ⟨⟨500, .obj [(s "summary", .str (s "⚠️ Could not connect to Judicio server.")),
                     (s "error", .str e)]⟩, true, true⟩
      | .ok c =>
        ⟨⟨200, .obj [(s "language", .str (s "Auto-Detected")),
                     (s "summary", .str (jsOr (c.map trim) (s "⚠️ No summary generated.")))]⟩,
         true, true⟩
  else
    ⟨⟨200, .obj [(s "summary", .str (s "⚠️ Unsupported file type."))]⟩, true, false⟩

/-- Variant B, everything after the `fs.unlinkSync` of
`POST /api/analyze-document` (lines 334–373): ML clauses `cl`, then the
completion call; its `catch` does not touch the file. -/
def analyzeBTail (cl : List Json) (co : Except Unit (List Char)) (attempted : Bool) :
    DocOut :=
  match co with
  | .error _ =>
    ⟨⟨500, .obj [(s "summary", .str (s "⚠️ Unable to analyze document.")),
                 (s "ml_clauses", .arr [])]⟩, true, attempted⟩
  | .ok c =>
    ⟨⟨200, .obj [(s "language", .str (s "Auto-Detected")),
                 (s "summary", .str (trim c)),
                 (s "ml_clauses", .arr cl)]⟩, true, attempted⟩

/-- Variant B, `POST /api/analyze-document` (lines 315–374): an
unsupported extension is *not* rejected — `text` stays `""` and the
pipeline continues; extraction only runs for pdf/docx/txt, and a thrown
extraction again skips the unlink. -/
def analyzeB (name : List Char) (ex : Except Unit (List Char)) (cl : List Json)
    (co : Except Unit (List Char)) : DocOut :=
  if supportedExt (extOf name) = true then
    match ex with
    | .error _ =>
      ⟨⟨500, .obj [(s "summary", .str (s "⚠️ Unable to analyze document.")),
                   (s "ml_clauses", .arr [])]⟩, false, true⟩
    | .ok _ => analyzeBTail cl co true
  else analyzeBTail cl co false

/-- The `{outcome, reasoning, confidence}` JSON object. -/
def predJson (p : Prediction) : Json :=
  .obj [(s "outcome", .str p.outcome),
        (s "reasoning", .str p.reasoning),
        (s "confidence", .str p.confidence)]

/-- Variant A, `POST /predict-outcome` (lines 115–157): field validation
with 400, a 500 `catch`, and `predictCoreA` on
`completion?.choices?.[0]?.message?.content || ""`. -/
def predictA (ct j su : Option (List Char)) (co : Except Unit (Option (List Char))) :
    Response :=
  if jsFalsy ct || jsFalsy j || jsFalsy su then
    ⟨400, predJson ⟨s "⚠️ Missing required fields.", [], []⟩⟩
  else
    match co with
    | .error _ => ⟨500, predJson ⟨s "⚠️ Could not connect to Judicio server.", [], []⟩⟩
    | .ok c => ⟨200, predJson (predictCoreA (c.getD []))⟩

/-- Variant B, `POST /predict-outcome` (lines 380–417): no validation,
`predictCoreB` on the trimmed content, 200 on error. -/
def predictB (co : Except Unit (List Char)) : Response :=
  match co with
  | .error _ => ⟨200, predJson ⟨s "⚠️ Server error", [], []⟩⟩
  | .ok c => ⟨200, predJson (predictCoreB (trim c))⟩

/-- The timeline entry objects of variant A. -/
def entryAJson (e : TimelineEntryA) : Json :=
  .obj [(s "date", .str e.date), (s "event", .str e.event)]

/-- The timeline entry objects of variant B: an `undefined` event is
dropped by serialization. -/
def entryBJson (e : TimelineEntryB) : Json :=
  .obj (objFields [(s "date", some (.str e.date)), (s "event", e.event.map .str)])

/-- Variant A, `POST /generate-timeline` (lines 162–185). -/
def genTimelineA (co : Except Unit (Option (List Char))) : Response :=
  match co with
  | .error _ =>
    ⟨500, .arr [entryAJson ⟨s "Error", s "⚠️ Could not generate timeline."⟩]⟩
  | .ok c =>
    ⟨200, .arr ((timelineCoreA (jsOr c (s "⚠️ No timeline generated."))).map entryAJson)⟩

/-- Variant B, `POST /generate-timeline` (lines 423–452): 200 on error. -/
def genTimelineB (co : Except Unit (List Char)) : Response :=
  match co with
  | .error _ => ⟨200, .arr [entryBJson ⟨s "Error", some (s "Timeline generation failed")⟩]⟩
  | .ok c => ⟨200, .arr ((timelineCoreB c).map entryBJson)⟩

/-- The argument block objects of variant A. -/
def blockAJson (b : ArgumentBlockA) : Json :=
  .obj [(s "argument", .str b.argument),
        (s "analysis", .str b.analysis),
        (s "response", .str b.response)]

/-- The argument block objects of variant B: `undefined` analysis or
strategy is dropped by serialization. -/
def blockBJson (b : ArgumentBlockB) : Json :=
  .obj (objFields [(s "argument", some (.str b.argument)),
                   (s "analysis", b.analysis.map .str),
                   (s "strategy", b.strategy.map .str)])

/-- Variant A, `POST /generate-arguments` (lines 190–224). -/
def genArgsA (co : Except Unit (Option (List Char))) : Response :=
  match co with
  | .error _ =>
    ⟨500, .arr [.obj [(s "argument", .str (s "⚠️ Could not connect to Judicio server."))]]⟩
  | .ok c => ⟨200, .arr ((argsCoreA (c.getD [])).map blockAJson)⟩

/-- Variant B, `POST /generate-arguments` (lines 458–493): 200 on error. -/
def genArgsB (co : Except Unit (List Char)) : Response :=
  match co with
  | .error _ => ⟨200, .arr [.obj [(s "argument", .str (s "⚠️ Server unreachable"))]]⟩
  | .ok c => ⟨200, .arr ((argsCoreB c).map blockBJson)⟩

/-! ## Shape observations on responses -/

/-- Field lookup in a JSON object (`none` on non-objects). -/
def getField (j : Json) (k : List Char) : Option Json :=
  match j with
  | .obj fs => List.lookup k fs
  | _ => none

/-- The string payload of an object field, when present. -/
def strField (j : Json) (k : List Char) : Option (List Char) :=
  match getField j k with
  | some (.str v) => some v
  | _ => none

/-- Does the object have a string-valued field `k`? -/
def isStrField (j : Json) (k : List Char) : Bool :=
  match getField j k with
  | some (.str _) => true
  | _ => false

/-- Shape `{text: string}` declared for `/chat`. -/
def chatShape (j : Json) : Bool := isStrField j (s "text")

/-- Shape `{outcome, reasoning, confidence : string}` declared for
`/predict-outcome`. -/
def predShape (j : Json) : Bool :=
  isStrField j (s "outcome") && isStrField j (s "reasoning") && isStrField j (s "confidence")

/-- An array each of whose elements satisfies `p`. -/
def arrShape (p : Json → Bool) (j : Json) : Bool :=
  match j with
  | .arr l => l.all p
  | _ => false

/-- Shape `{date, event : string}` declared for timeline entries. -/
def entryShape (j : Json) : Bool := isStrField j (s "date") && isStrField j (s "event")

/-- Declared `/generate-timeline` payload shape: array of `{date, event}`. -/
def timelineShape (j : Json) : Bool := arrShape entryShape j

/-- Weakened timeline entry shape: only `date` is guaranteed. -/
def dateShape (j : Json) : Bool := isStrField j (s "date")

/-- Full argument block shape of variant A. -/
def argShapeFull (j : Json) : Bool :=
  isStrField j (s "argument") && isStrField j (s "analysis") && isStrField j (s "response")

/-- Weakened argument block shape: only `argument` is guaranteed. -/
def argShapeMin (j : Json) : Bool := isStrField j (s "argument")

/-- No recognizable `Outcome` / `Reasoning` / `Confidence` label (each
followed by `:` or `-`), even case-insensitively. -/
abbrev noLabels (t : List Char) : Prop :=
  findLabel (s "Outcome") true t = none ∧
  findLabel (s "Reasoning") true t = none ∧
  findLabel (s "Confidence") true t = none

/-! ## Helper lemmas about the scanning functions -/

theorem sw_mono : ∀ (lab t : List Char), startsWith2 false lab t = true →
    startsWith2 true lab t = true
  | [], _, _ => rfl
  | _ :: _, [], h => by simp [startsWith2] at h
  | p :: ps, c :: cs, h => by
    simp only [startsWith2, Bool.and_eq_true] at h ⊢
    obtain ⟨h1, h2⟩ := h
    have h1eq : p = c := by simpa [chEq] using h1
    subst h1eq
    exact ⟨by simp [chEq, lcEq], sw_mono ps cs h2⟩

theorem sl_mono (lab t : List Char) (h : startsLabel lab false t = true) :
    startsLabel lab true t = true := by
  simp only [startsLabel, Bool.and_eq_true] at h ⊢
  exact ⟨sw_mono lab t h.1, h.2⟩

theorem findLabel_ci_none (lab t : List Char) (h : findLabel lab true t = none) :
    findLabel lab false t = none := by
  induction t with
  | nil => rfl
  | cons c cs ih =>
    rw [findLabel] at h ⊢
    by_cases hs : startsLabel lab true (c :: cs) = true
    · rw [if_pos hs] at h
      exact absurd h (by simp)
    · rw [if_neg hs] at h
      rw [if_neg (fun hx => hs (sl_mono lab (c :: cs) hx))]
      exact ih h

theorem sw_len : ∀ (ci : Bool) (lab t : List Char), startsWith2 ci lab t = true →
    lab.length ≤ t.length
  | _, [], _, _ => by simp
  | _, _ :: _, [], h => by simp [startsWith2] at h
  | ci, p :: ps, c :: cs, h => by
    simp only [startsWith2, Bool.and_eq_true] at h
    simpa using sw_len ci ps cs h.2

theorem sw_append (ci : Bool) : ∀ (lab x r : List Char),
    startsWith2 ci lab x = true → startsWith2 ci lab (x ++ r) = true
  | [], _, _, _ => rfl
  | _ :: _, [], _, h => by simp [startsWith2] at h
  | p :: ps, c :: cs, r, h => by
    simp only [startsWith2, Bool.and_eq_true, List.cons_append] at h ⊢
    exact ⟨h.1, sw_append ci ps cs r h.2⟩

theorem sl_append (ci : Bool) (lab x r : List Char) (h : startsLabel lab ci x = true) :
    startsLabel lab ci (x ++ r) = true := by
  simp only [startsLabel, Bool.and_eq_true] at h ⊢
  obtain ⟨h1, h2⟩ := h
  refine ⟨sw_append ci lab x r h1, ?_⟩
  rw [List.drop_append_of_le_length (sw_len ci lab x h1)]
  cases hd : List.drop lab.length x with
  | nil => rw [hd] at h2; exact absurd h2 (by simp)
  | cons a as => rw [hd] at h2; simpa using h2

theorem findLabel_head (lab : List Char) (ci : Bool) (t : List Char)
    (h : startsLabel lab ci t = true) :
    findLabel lab ci t = some (List.drop (lab.length + 1) t) := by
  cases t with
  | nil =>
    exfalso
    simp only [startsLabel, Bool.and_eq_true, List.drop_nil] at h
    exact absurd h.2 (by simp)
  | cons c cs =>
    rw [findLabel, if_pos h, List.drop_succ_cons]

theorem dropWhile_idem (p : α → Bool) (l : List α) :
    List.dropWhile p (List.dropWhile p l) = List.dropWhile p l := by
  induction l with
  | nil => rfl
  | cons c cs ih =>
    by_cases h : p c = true
    · rw [List.dropWhile_cons_of_pos h]
      exact ih
    · have h2 : p c = false := by
        cases hb : p c
        · rfl
        · exact absurd hb h
      rw [List.dropWhile_cons_of_neg (by simp [h2]),
          List.dropWhile_cons_of_neg (by simp [h2])]

theorem dropWhile_self_head (p : α → Bool) (c : α) (cs : List α)
    (h : List.dropWhile p (c :: cs) = c :: cs) : p c = false := by
  cases hb : p c
  · rfl
  · exfalso
    rw [List.dropWhile_cons_of_pos hb] at h
    have hle := (List.dropWhile_sublist (l := cs) (p := p)).length_le
    rw [h] at hle
    simp at hle

theorem trim_no_lead (l : List Char) : List.dropWhile jsSpace (trim l) = trim l := by
  cases hcase : trim l with
  | nil => rfl
  | cons c cs =>
    have hsplit := List.takeWhile_append_dropWhile (p := jsSpace)
      (l := (l.dropWhile jsSpace).reverse)
    have hA : l.dropWhile jsSpace
        = trim l ++ (List.takeWhile jsSpace (l.dropWhile jsSpace).reverse).reverse := by
      have h2 := congrArg List.reverse hsplit
      rw [List.reverse_append, List.reverse_reverse] at h2
      exact h2.symm
    have hc : jsSpace c = false := by
      apply dropWhile_self_head jsSpace c
        (cs ++ (List.takeWhile jsSpace (l.dropWhile jsSpace).reverse).reverse)
      have h3 : l.dropWhile jsSpace
          = c :: (cs ++ (List.takeWhile jsSpace (l.dropWhile jsSpace).reverse).reverse) := by
        nth_rewrite 1 [hA]
        rw [hcase, List.cons_append]
      rw [← h3]
      exact dropWhile_idem jsSpace l
    rw [List.dropWhile_cons_of_neg (by simp [hc])]

theorem trim_rev_fix (l : List Char) :
    List.dropWhile jsSpace (trim l).reverse = (trim l).reverse := by
  have h1 : (trim l).reverse = (l.dropWhile jsSpace).reverse.dropWhile jsSpace := by
    show ((((l.dropWhile jsSpace).reverse.dropWhile jsSpace).reverse).reverse) = _
    rw [List.reverse_reverse]
  rw [h1]
  exact dropWhile_idem jsSpace (l.dropWhile jsSpace).reverse

theorem trim_idem (l : List Char) : trim (trim l) = trim l := by
  show ((List.dropWhile jsSpace (trim l)).reverse.dropWhile jsSpace).reverse = trim l
  rw [trim_no_lead, trim_rev_fix, List.reverse_reverse]

theorem mem_trim (a : Char) (l : List Char) (h : a ∈ trim l) : a ∈ l := by
  unfold trim at h
  rw [List.mem_reverse] at h
  have h2 := (List.dropWhile_sublist (p := jsSpace)).mem h
  rw [List.mem_reverse] at h2
  exact (List.dropWhile_sublist (p := jsSpace)).mem h2

theorem splitChars_single (p : Char → Bool) (a : List Char)
    (h : ∀ c ∈ a, p c = false) : splitChars p a = [a] := by
  induction a with
  | nil => rfl
  | cons c cs ih =>
    rw [splitChars, if_neg (by simp [h c (List.mem_cons_self c cs)]),
        ih (fun x hx => h x (List.mem_cons_of_mem c hx))]

theorem dropSpaces_append (a r : List Char) (ha : dropSpaces a = a) (hne : a ≠ []) :
    dropSpaces (a ++ r) = a ++ r := by
  cases a with
  | nil => exact absurd rfl hne
  | cons c cs =>
    have hc : jsSpace c = false := dropWhile_self_head jsSpace c cs ha
    rw [List.cons_append]
    unfold dropSpaces
    rw [List.dropWhile_cons_of_neg (by simp [hc])]

theorem upToLabel_append (stop : List Char) : ∀ (a r : List Char),
    (∀ i, i < a.length → startsLabel stop true (List.drop i (a ++ r)) = false) →
    startsLabel stop true r = true →
    upToLabel stop (a ++ r) = a
  | [], r, _, hr => by
    cases r with
    | nil =>
      exfalso
      simp only [startsLabel, Bool.and_eq_true, List.drop_nil] at hr
      exact absurd hr.2 (by simp)
    | cons c cs =>
      rw [List.nil_append, upToLabel, if_pos hr]
  | c :: cs, r, hA, hr => by
    rw [List.cons_append, upToLabel]
    have h0 : startsLabel stop true (c :: (cs ++ r)) = false := by
      have := hA 0 (by simp)
      simpa using this
    rw [if_neg (by simp [h0])]
    have ih := upToLabel_append stop cs r
      (fun i hi => by
        have := hA (i + 1) (by simpa using Nat.succ_lt_succ hi)
        simpa [List.drop_succ_cons] using this) hr
    rw [ih]

theorem takeWhile_append_of_break (p : α → Bool) : ∀ (a r : List α),
    (∃ x ∈ a, p x = false) →
    List.takeWhile p (a ++ r) = List.takeWhile p a
  | [], _, h => by simp at h
  | c :: cs, r, h => by
    by_cases hc : p c = true
    · rw [List.cons_append, List.takeWhile_cons_of_pos hc, List.takeWhile_cons_of_pos hc]
      obtain ⟨x, hx, hpx⟩ := h
      have hxcs : x ∈ cs := by
        rcases List.mem_cons.mp hx with h1 | h1
        · subst h1; rw [hc] at hpx; exact absurd hpx (by simp)
        · exact h1
      rw [takeWhile_append_of_break p cs r ⟨x, hxcs, hpx⟩]
    · have hc2 : p c = false := by
        cases hb : p c
        · rfl
        · exact absurd hb hc
      rw [List.cons_append, List.takeWhile_cons_of_neg (by simp [hc2]),
          List.takeWhile_cons_of_neg (by simp [hc2])]

/-! ## Claim C1 — the timeline example -/

/-- C1 (counterexample): on the reply
`"2020-01-15 - Contract signed\n2020-03-25 - Lockdown begins"` the
extracted date fields are NOT `"2020-01-15"` and `"2020-03-25"`: the
split regex `/[-–:]/` fires at every dash, so the dates are truncated. -/
theorem c1_counterexample :
    (timelineCoreA (s "2020-01-15 - Contract signed\n2020-03-25 - Lockdown begins")).map
      TimelineEntryA.date ≠ [s "2020-01-15", s "2020-03-25"] := by decide

/-- C1 (amended): timeline extraction returns two entries in input
order, but each line is split at every dash/en-dash/colon, so the date is
only the text before the first dash (`"2020"` for both lines); variant A
joins the remaining pieces with spaces into the event, while variant B
keeps only the piece between the first and second separators. -/
theorem c1_theorem :
    timelineCoreA (s "2020-01-15 - Contract signed\n2020-03-25 - Lockdown begins")
      = [⟨s "2020", s "01 15   Contract signed"⟩,
         ⟨s "2020", s "03 25   Lockdown begins"⟩] ∧
    timelineCoreB (s "2020-01-15 - Contract signed\n2020-03-25 - Lockdown begins")
      = [⟨s "2020", some (s "01")⟩, ⟨s "2020", some (s "03")⟩] := by decide

/-! ## Claim C2 — upload deletion -/

/-- C2 (counterexample): in variant A, when extraction throws (a corrupt
pdf), the `catch` answers 500 without reaching `fs.unlinkSync`, so the
stored upload is NOT deleted. -/
theorem c2_counterexample :
    (analyzeA (s "contract.pdf") (Except.error (s "bad pdf"))
      (Except.ok (some (s "hi")))).deleted = false := by decide

/-- C2 (amended): in both variants the upload is deleted exactly when
the extension is unsupported or extraction returns normally; on a thrown
extraction the file survives the handler.  (Errors after extraction —
the completion call — still leave the file deleted, since the unlink has
already run.) -/
theorem c2_theorem :
    (∀ (name : List Char) (ex : Except (List Char) (List Char))
       (co : Except (List Char) (Option (List Char))),
       (analyzeA name ex co).deleted = (!supportedExt (extOf name) || exOk ex)) ∧
    (∀ (name : List Char) (ex : Except Unit (List Char)) (cl : List Json)
       (co : Except Unit (List Char)),
       (analyzeB name ex cl co).deleted = (!supportedExt (extOf name) || exOk ex)) := by
  constructor
  · intro name ex co
    by_cases h : supportedExt (extOf name) = true
    · cases ex with
      | error e => simp [analyzeA, h, exOk]
      | ok t => cases co <;> simp [analyzeA, h, exOk]
    · have h2 : supportedExt (extOf name) = false := by
        cases hb : supportedExt (extOf name)
        · rfl
        · exact absurd hb h
      simp [analyzeA, h2, exOk]
  · intro name ex cl co
    by_cases h : supportedExt (extOf name) = true
    · cases ex with
      | error e => simp [analyzeB, h, exOk]
      | ok t => cases co <;> simp [analyzeB, analyzeBTail, h, exOk]
    · have h2 : supportedExt (extOf name) = false := by
        cases hb : supportedExt (extOf name)
        · rfl
        · exact absurd hb h
      cases co <;> simp [analyzeB, analyzeBTail, h2, exOk]

/-! ## Claim C3 — unsupported extensions -/

/-- C3 (counterexample): variant B has no unsupported-extension branch —
an `.exe` upload flows on with empty text, and the response carries the
model's summary, not the "unsupported file type" sentinel. -/
theorem c3_counterexample :
    strField (analyzeB (s "notes.exe") (Except.ok []) []
        (Except.ok (s "General summary"))).resp.body (s "summary")
      = some (s "General summary") ∧
    some (s "General summary") ≠ some (s "⚠️ Unsupported file type.") := by decide

/-- C3 (amended): for an unsupported extension neither variant attempts
extraction; variant A answers 200 with the "unsupported file type"
sentinel summary, but variant B proceeds with empty text and answers 200
with a normal model-summary payload. -/
theorem c3_theorem (name : List Char) (exA : Except (List Char) (List Char))
    (coA : Except (List Char) (Option (List Char))) (exB : Except Unit (List Char))
    (cl : List Json) (c : List Char)
    (h : supportedExt (extOf name) = false) :
    (analyzeA name exA coA).attempted = false ∧
    (analyzeA name exA coA).resp.status = 200 ∧
    strField (analyzeA name exA coA).resp.body (s "summary")
      = some (s "⚠️ Unsupported file type.") ∧
    (analyzeB name exB cl (Except.ok c)).attempted = false ∧
    (analyzeB name exB cl (Except.ok c)).resp.status = 200 ∧
    strField (analyzeB name exB cl (Except.ok c)).resp.body (s "summary")
      = some (trim c) := by
  have hA : analyzeA name exA coA
      = ⟨⟨200, .obj [(s "summary", .str (s "⚠️ Unsupported file type."))]⟩, true, false⟩ := by
    simp [analyzeA, h]
  have hB : analyzeB name exB cl (Except.ok c) = analyzeBTail cl (Except.ok c) false := by
    simp [analyzeB, h]
  rw [hA, hB]
  exact ⟨rfl, rfl, rfl, rfl, rfl, rfl⟩

/-- C3 (witness): the amended claim at a concrete `.exe` request. -/
theorem c3_witness :
    supportedExt (extOf (s "notes.exe")) = false ∧
    ((analyzeA (s "notes.exe") (Except.ok []) (Except.ok none)).attempted = false ∧
     (analyzeA (s "notes.exe") (Except.ok []) (Except.ok none)).resp.status = 200 ∧
     strField (analyzeA (s "notes.exe") (Except.ok []) (Except.ok none)).resp.body
       (s "summary") = some (s "⚠️ Unsupported file type.") ∧
     (analyzeB (s "notes.exe") (Except.ok []) [] (Except.ok (s "hello"))).attempted = false ∧
     (analyzeB (s "notes.exe") (Except.ok []) [] (Except.ok (s "hello"))).resp.status = 200 ∧
     strField (analyzeB (s "notes.exe") (Except.ok []) [] (Except.ok (s "hello"))).resp.body
       (s "summary") = some (trim (s "hello"))) :=
  ⟨by decide, c3_theorem (s "notes.exe") (Except.ok []) (Except.ok none)
    (Except.ok []) [] (s "hello") (by decide)⟩

/-! ## Claim C4 — the no-label fallback record -/

/-- C4 (counterexample): a reply with no recognizable label makes variant
B's extraction produce empty strings, not the fallback record the claim
names. -/
theorem c4_counterexample :
    noLabels (s "The court will decide later.") ∧
    predictCoreB (s "The court will decide later.")
      ≠ ⟨s "No clear outcome.", s "No reasoning found.", s "Unknown"⟩ := by decide

/-- C4 (amended): on a reply with no recognizable Outcome / Reasoning /
Confidence label, variant A returns exactly the fallback record
`{outcome: "No clear outcome.", reasoning: "No reasoning found.",
confidence: "Unknown"}`, while variant B returns three empty strings. -/
theorem c4_theorem (t : List Char) (h : noLabels t) :
    predictCoreA t = ⟨s "No clear outcome.", s "No reasoning found.", s "Unknown"⟩ ∧
    predictCoreB t = ⟨[], [], []⟩ := by
  obtain ⟨h1, h2, h3⟩ := h
  constructor
  · unfold predictCoreA matchLine matchMulti
    rw [h1, h2, h3]
    rfl
  · unfold predictCoreB matchLine
    rw [findLabel_ci_none _ _ h1, findLabel_ci_none _ _ h2, findLabel_ci_none _ _ h3]
    rfl

/-- C4 (witness): the amended claim at a concrete label-free reply. -/
theorem c4_witness :
    noLabels (s "The court will decide later.") ∧
    (predictCoreA (s "The court will decide later.")
        = ⟨s "No clear outcome.", s "No reasoning found.", s "Unknown"⟩ ∧
     predictCoreB (s "The court will decide later.") = ⟨[], [], []⟩) :=
  ⟨by decide, c4_theorem (s "The court will decide later.") (by decide)⟩

/-! ## Claim C5 — label matching across the variants -/

/-- C5 (counterexample): variant B's reasoning capture is `(.*)` — it
stops at the end of the line, not at the Confidence label, so the claim
fails on a multi-line reasoning. -/
theorem c5_counterexample :
    (predictCoreB (s "Reasoning: first\nsecond\nConfidence: 90%")).reasoning = s "first" ∧
    (predictCoreA (s "Reasoning: first\nsecond\nConfidence: 90%")).reasoning
      = s "first\nsecond" ∧
    s "first" ≠ s "first\nsecond" := by decide

/-- C5 (amended): variant A matches the labels case-insensitively and its
Reasoning capture is multi-line, stopping at the Confidence label (or end
of string); variant B matches case-sensitively and every capture stops at
the end of the line.  Stated for a reply `Reasoning:<a>Confidence-<b>`
where `a` is a nonempty trimmed body containing a newline and no early
Confidence occurrence (mixed-case labels on the A side). -/
theorem c5_theorem (a b : List Char)
    (hA : ∀ i, i < a.length →
      startsLabel (s "Confidence") true
        (List.drop i (a ++ (s "cOnFiDeNcE-" ++ b))) = false)
    (ha : dropSpaces a = a) (htr : trim a = a) (hne : a ≠ []) (hnl : '\n' ∈ a) :
    (predictCoreA (s "ReAsOnInG:" ++ (a ++ (s "cOnFiDeNcE-" ++ b)))).reasoning = a ∧
    (predictCoreB (s "Reasoning:" ++ (a ++ (s "Confidence-" ++ b)))).reasoning
      = takeLine a ∧
    takeLine a ≠ a := by
  refine ⟨?_, ?_, ?_⟩
  · have hstart : startsLabel (s "Reasoning") true
        (s "ReAsOnInG:" ++ (a ++ (s "cOnFiDeNcE-" ++ b))) = true :=
      sl_append true (s "Reasoning") (s "ReAsOnInG:") _ (by decide)
    have hfind := findLabel_head (s "Reasoning") true _ hstart
    have hlen : (s "Reasoning").length + 1 = (s "ReAsOnInG:").length := by decide
    rw [hlen, List.drop_left] at hfind
    have hds : dropSpaces (a ++ (s "cOnFiDeNcE-" ++ b)) = a ++ (s "cOnFiDeNcE-" ++ b) :=
      dropSpaces_append a _ ha hne
    have hstop : startsLabel (s "Confidence") true (s "cOnFiDeNcE-" ++ b) = true :=
      sl_append true (s "Confidence") (s "cOnFiDeNcE-") b (by decide)
    have hup : upToLabel (s "Confidence") (a ++ (s "cOnFiDeNcE-" ++ b)) = a :=
      upToLabel_append (s "Confidence") a _ hA hstop
    show jsOrElse
      (matchMulti (s "Reasoning") (s "Confidence")
        (s "ReAsOnInG:" ++ (a ++ (s "cOnFiDeNcE-" ++ b))))
      (s "No reasoning found.") = a
    unfold matchMulti
    rw [hfind]
    show jsOrElse (some (upToLabel (s "Confidence")
      (dropSpaces (a ++ (s "cOnFiDeNcE-" ++ b))))) (s "No reasoning found.") = a
    rw [hds, hup]
    simp [jsOrElse, htr, List.isEmpty_eq_false.mpr hne]
  · have hstart : startsLabel (s "Reasoning") false
        (s "Reasoning:" ++ (a ++ (s "Confidence-" ++ b))) = true :=
      sl_append false (s "Reasoning") (s "Reasoning:") _ (by decide)
    have hfind := findLabel_head (s "Reasoning") false _ hstart
    have hlen : (s "Reasoning").length + 1 = (s "Reasoning:").length := by decide
    rw [hlen, List.drop_left] at hfind
    have hds : dropSpaces (a ++ (s "Confidence-" ++ b)) = a ++ (s "Confidence-" ++ b) :=
      dropSpaces_append a _ ha hne
    have htk : takeLine (a ++ (s "Confidence-" ++ b)) = takeLine a := by
      unfold takeLine
      exact takeWhile_append_of_break _ a _ ⟨'\n', hnl, by decide⟩
    show (matchLine (s "Reasoning") false
      (s "Reasoning:" ++ (a ++ (s "Confidence-" ++ b)))).getD [] = takeLine a
    unfold matchLine
    rw [hfind]
    show (some (takeLine (dropSpaces (a ++ (s "Confidence-" ++ b))))).getD [] = takeLine a
    rw [hds, htk]
    rfl
  · intro heq
    have hmem : '\n' ∈ takeLine a := heq.symm ▸ hnl
    have h2 := List.mem_takeWhile_imp hmem
    simp [isLineTerm] at h2

/-- C5 (witness): the amended claim at a concrete two-line reasoning
body with mixed-case labels. -/
theorem c5_witness :
    (∀ i, i < (s "line one\nline two").length →
      startsLabel (s "Confidence") true
        (List.drop i (s "line one\nline two" ++ (s "cOnFiDeNcE-" ++ s " 90%"))) = false) ∧
    dropSpaces (s "line one\nline two") = s "line one\nline two" ∧
    trim (s "line one\nline two") = s "line one\nline two" ∧
    s "line one\nline two" ≠ [] ∧
    '\n' ∈ s "line one\nline two" ∧
    ((predictCoreA (s "ReAsOnInG:" ++ (s "line one\nline two" ++ (s "cOnFiDeNcE-" ++ s " 90%")))).reasoning
        = s "line one\nline two" ∧
     (predictCoreB (s "Reasoning:" ++ (s "line one\nline two" ++ (s "Confidence-" ++ s " 90%")))).reasoning
        = takeLine (s "line one\nline two") ∧
     takeLine (s "line one\nline two") ≠ s "line one\nline two") :=
  ⟨by decide, by decide, by decide, by decide, by decide,
   c5_theorem (s "line one\nline two") (s " 90%")
     (by decide) (by decide) (by decide) (by decide) (by decide)⟩

/-! ## Claim C6 — lines without a separator -/

/-- C6 (counterexample): a separator-free line becomes
`{date: wholeLine, event: ""}`, not `{date: "—", event: wholeLine}` —
the `"—"` sentinel does not exist in the code. -/
theorem c6_counterexample :
    timelineCoreA (s "Nothing happened here") = [⟨s "Nothing happened here", []⟩] ∧
    (⟨s "Nothing happened here", []⟩ : TimelineEntryA)
      ≠ ⟨s "—", s "Nothing happened here"⟩ := by decide

/-- C6 (amended): a non-blank line with no dash/en-dash/em-dash/colon
becomes `{date: trimmedLine, event: ""}` in variant A and
`{date: trimmedLine, event: undefined}` in variant B. -/
theorem c6_theorem (line : List Char)
    (hsep : ∀ c ∈ line, sepB c = false)
    (hnl : '\n' ∉ line)
    (hne : trim line ≠ []) :
    timelineCoreA line = [⟨trim line, []⟩] ∧
    timelineCoreB line = [⟨trim line, none⟩] := by
  have hnlb : ∀ c ∈ line, (c == '\n') = false := by
    intro c hc
    cases hb : c == '\n'
    · rfl
    · exact absurd (beq_iff_eq.mp hb ▸ hc) hnl
  have hsepA : ∀ c ∈ line, sepA c = false := by
    intro c hc
    have hB := hsep c hc
    revert hB
    simp [sepA, sepB]
    tauto
  constructor
  · unfold timelineCoreA
    rw [splitChars_single _ line hnlb]
    have hf : List.filter (fun l => !(trim l).isEmpty) [line] = [line] := by
      simp [List.isEmpty_eq_false.mpr hne]
    rw [hf]
    simp [splitChars_single sepA line hsepA]
    rfl
  · unfold timelineCoreB
    have hmemNl : ∀ c ∈ trim line, (c == '\n') = false :=
      fun c hc => hnlb c (mem_trim c line hc)
    have hmemSep : ∀ c ∈ trim line, sepB c = false :=
      fun c hc => hsep c (mem_trim c line hc)
    rw [splitChars_single _ (trim line) hmemNl]
    simp [splitChars_single sepB (trim line) hmemSep, trim_idem]

/-- C6 (witness): the amended claim on the spec's example line. -/
theorem c6_witness :
    (∀ c ∈ s "Nothing happened here", sepB c = false) ∧
    '\n' ∉ s "Nothing happened here" ∧
    trim (s "Nothing happened here") ≠ [] ∧
    (timelineCoreA (s "Nothing happened here")
        = [⟨trim (s "Nothing happened here"), []⟩] ∧
     timelineCoreB (s "Nothing happened here")
        = [⟨trim (s "Nothing happened here"), none⟩]) :=
  ⟨by decide, by decide, by decide,
   c6_theorem (s "Nothing happened here") (by decide) (by decide) (by decide)⟩

/-! ## Claim C7 — idempotence on the fallback record -/

/-- C7 (confirmed): running variant A's field extraction on text made of
the fallback strings yields the fallback record again — "outcome"
and "reasoning" occur but are not followed by `:` or `-`, and
"Confidence" does not occur at all. -/
theorem c7_theorem :
    predictCoreA (s "No clear outcome.\nNo reasoning found.\nUnknown")
      = ⟨s "No clear outcome.", s "No reasoning found.", s "Unknown"⟩ := by decide

/-! ## Claim C8 — response payload shapes -/

/-- C8 (counterexample): variant B's timeline serializes an entry with no
separator as `{date: ...}` with NO `event` key (`undefined` is dropped),
so the payload is not of the declared `{date, event}` shape. -/
theorem c8_counterexample :
    timelineShape (genTimelineB (Except.ok (s "No events found"))).body = false := by decide

/-- C8 (amended): every handler of both variants answers a JSON value on
every oracle outcome, with errors degrading to fallback payloads or an
explicit 500 JSON body; the declared shapes hold for the chat, predict,
analyze and variant-A timeline/argument payloads, while variant B's
timeline and argument entries are only guaranteed their `date` /
`argument` field (`event`, `analysis`, `strategy` are dropped when the
reply lacks the separator or label). -/
theorem c8_theorem :
    (∀ (p m : Option (List Char)) (co : Except (List Char) (Option (List Char))),
      chatShape (chatA p m co).body = true) ∧
    (∀ (co : Except Unit (List Char)), chatShape (chatB co).body = true) ∧
    (∀ (name : List Char) (ex : Except (List Char) (List Char))
       (co : Except (List Char) (Option (List Char))),
      isStrField (analyzeA name ex co).resp.body (s "summary") = true) ∧
    (∀ (name : List Char) (ex : Except Unit (List Char)) (cl : List Json)
       (co : Except Unit (List Char)),
      isStrField (analyzeB name ex cl co).resp.body (s "summary") = true) ∧
    (∀ (ct j su : Option (List Char)) (co : Except Unit (Option (List Char))),
      predShape (predictA ct j su co).body = true) ∧
    (∀ (co : Except Unit (List Char)), predShape (predictB co).body = true) ∧
    (∀ (co : Except Unit (Option (List Char))), timelineShape (genTimelineA co).body = true) ∧
    (∀ (co : Except Unit (List Char)), arrShape dateShape (genTimelineB co).body = true) ∧
    (∀ (co : Except Unit (Option (List Char))), arrShape argShapeMin (genArgsA co).body = true) ∧
    (∀ (c : Option (List Char)), arrShape argShapeFull (genArgsA (Except.ok c)).body = true) ∧
    (∀ (co : Except Unit (List Char)), arrShape argShapeMin (genArgsB co).body = true) := by
  refine ⟨?_, ?_, ?_, ?_, ?_, ?_, ?_, ?_, ?_, ?_, ?_⟩
  · intro p m co
    cases co <;> (unfold chatA; split <;> rfl)
  · intro co
    cases co <;> rfl
  · intro name ex co
    unfold analyzeA
    split
    · cases ex with
      | error e => rfl
      | ok t => cases co <;> rfl
    · rfl
  · intro name ex cl co
    unfold analyzeB analyzeBTail
    split
    · cases ex with
      | error e => rfl
      | ok t => cases co <;> rfl
    · cases co <;> rfl
  · intro ct j su co
    unfold predictA
    split
    · rfl
    · cases co <;> rfl
  · intro co
    cases co <;> rfl
  · intro co
    cases co with
    | error e => rfl
    | ok c =>
      show ((timelineCoreA (jsOr c (s "⚠️ No timeline generated."))).map entryAJson).all
        entryShape = true
      apply List.all_eq_true.mpr
      intro x hx
      obtain ⟨y, _, rfl⟩ := List.mem_map.mp hx
      rfl
  · intro co
    cases co with
    | error e => rfl
    | ok c =>
      show ((timelineCoreB c).map entryBJson).all dateShape = true
      apply List.all_eq_true.mpr
      intro x hx
      obtain ⟨y, _, rfl⟩ := List.mem_map.mp hx
      rfl
  · intro co
    cases co with
    | error e => rfl
    | ok c =>
      show ((argsCoreA (c.getD [])).map blockAJson).all argShapeMin = true
      apply List.all_eq_true.mpr
      intro x hx
      obtain ⟨y, _, rfl⟩ := List.mem_map.mp hx
      rfl
  · intro c
    show ((argsCoreA (c.getD [])).map blockAJson).all argShapeFull = true
    apply List.all_eq_true.mpr
    intro x hx
    obtain ⟨y, _, rfl⟩ := List.mem_map.mp hx
    rfl
  · intro co
    cases co with
    | error e => rfl
    | ok c =>
      show ((argsCoreB c).map blockBJson).all argShapeMin = true
      apply List.all_eq_true.mpr
      intro x hx
      obtain ⟨y, _, rfl⟩ := List.mem_map.mp hx
      rfl

/-! ## Claim C9 — argument extraction -/

/-- C9 (counterexample): in variant B the block's `argument` is ALL the
text before the `Analysis:` label, not just the segment's first line. -/
theorem c9_counterexample :
    (argsCoreB (s "Argument: Title A\nsecond line\nAnalysis: a1")).map
      ArgumentBlockB.argument = [s "Title A\nsecond line"] ∧
    s "Title A\nsecond line" ≠ s "Title A" := by decide

/-- C9 (amended): on the canonical template both variants produce the two
expected blocks; beyond it the variants differ from the claim — variant A
splits case-insensitively on `Argument[:-]`, drops EVERY whitespace-only
segment (not just an empty leading one) while keeping a non-empty leading
preamble as a block, and uses the fallback strings; variant B splits
case-sensitively on the literal `Argument:`, always discards the first
piece, takes the whole pre-`Analysis:` text as the argument and leaves
missing analysis/strategy fields absent. -/
theorem c9_theorem :
    argsCoreA (s "Argument: Title A\nAnalysis: a1\nStrategy: s1\nArgument: Title B\nAnalysis: a2\nStrategy: s2")
      = [⟨s "Title A", s "a1", s "s1"⟩, ⟨s "Title B", s "a2", s "s2"⟩] ∧
    argsCoreB (s "Argument: Title A\nAnalysis: a1\nStrategy: s1\nArgument: Title B\nAnalysis: a2\nStrategy: s2")
      = [⟨s "Title A", some (s "a1"), some (s "s1")⟩,
         ⟨s "Title B", some (s "a2"), some (s "s2")⟩] ∧
    argsCoreA (s "Argument:Argument: T\nAnalysis: x")
      = [⟨s "T", s "x", s "No strategy provided."⟩] ∧
    argsCoreA (s "preamble\nArgument: T")
      = [⟨s "preamble", s "No analysis provided.", s "No strategy provided."⟩,
         ⟨s "T", s "No analysis provided.", s "No strategy provided."⟩] ∧
    argsCoreB (s "preamble Argument: T") = [⟨s "T", none, none⟩] := by decide

/-! ## Claim C10 — the constant language field -/

/-- C10 (confirmed): whenever an analyze-document response carries a
`language` field it is the constant `"Auto-Detected"`, and on every
successful supported-extension run (any document, any model reply) the
field is present with that constant — no detection result ever reaches
it. -/
theorem c10_theorem :
    (∀ (name : List Char) (ex : Except (List Char) (List Char))
       (co : Except (List Char) (Option (List Char))),
       strField (analyzeA name ex co).resp.body (s "language") = none ∨
       strField (analyzeA name ex co).resp.body (s "language") = some (s "Auto-Detected")) ∧
    (∀ (name : List Char) (ex : Except Unit (List Char)) (cl : List Json)
       (co : Except Unit (List Char)),
       strField (analyzeB name ex cl co).resp.body (s "language") = none ∨
       strField (analyzeB name ex cl co).resp.body (s "language") = some (s "Auto-Detected")) ∧
    (∀ (name t : List Char) (c : Option (List Char)),
       supportedExt (extOf name) = true →
       strField (analyzeA name (Except.ok t) (Except.ok c)).resp.body (s "language")
         = some (s "Auto-Detected")) ∧
    (∀ (name t : List Char) (cl : List Json) (c : List Char),
       supportedExt (extOf name) = true →
       strField (analyzeB name (Except.ok t) cl (Except.ok c)).resp.body (s "language")
         = some (s "Auto-Detected")) := by
  refine ⟨?_, ?_, ?_, ?_⟩
  · intro name ex co
    unfold analyzeA
    split
    · cases ex with
      | error e => exact Or.inl rfl
      | ok t =>
        cases co with
        | error e => exact Or.inl rfl
        | ok c => exact Or.inr rfl
    · exact Or.inl rfl
  · intro name ex cl co
    unfold analyzeB analyzeBTail
    split
    · cases ex with
      | error e => exact Or.inl rfl
      | ok t => cases co with
        | error e => exact Or.inl rfl
        | ok c => exact Or.inr rfl
    · cases co with
      | error e => exact Or.inl rfl
      | ok c => exact Or.inr rfl
  · intro name t c h
    have hv : analyzeA name (Except.ok t) (Except.ok c)
        = ⟨⟨200, .obj [(s "language", .str (s "Auto-Detected")),
            (s "summary", .str (jsOr (c.map trim) (s "⚠️ No summary generated.")))]⟩,
           true, true⟩ := by
      simp [analyzeA, h]
    rw [hv]
    rfl
  · intro name t cl c h
    have hv : analyzeB name (Except.ok t) cl (Except.ok c)
        = analyzeBTail cl (Except.ok c) true := by
      simp [analyzeB, h]
    rw [hv]
    rfl

/-- C10 (witness): the supported-extension conjuncts at a concrete pdf
upload. -/
theorem c10_witness :
    supportedExt (extOf (s "brief.pdf")) = true ∧
    strField (analyzeA (s "brief.pdf") (Except.ok (s "text"))
        (Except.ok (some (s "Resumen")))).resp.body (s "language")
      = some (s "Auto-Detected") ∧
    strField (analyzeB (s "brief.pdf") (Except.ok (s "text")) []
        (Except.ok (s "Resumen"))).resp.body (s "language")
      = some (s "Auto-Detected") :=
  ⟨by decide,
   c10_theorem.2.2.1 (s "brief.pdf") (s "text") (some (s "Resumen")) (by decide),
   c10_theorem.2.2.2 (s "brief.pdf") (s "text") [] (s "Resumen") (by decide)⟩
